import Mathlib

set_option autoImplicit false
set_option maxRecDepth 100000
set_option maxHeartbeats 1600000

/-!
# Verification of `htmlmut.py` (mutmut HTML report generator)

Shallow embedding of the core of `src/htmlmut.py`: the status lattice
(`MUTANT_STATUS2TEXT`, `MUTANT_STATUS2BG`, `COMBINE_BGS`), the tokenizing
highlighter (`begin_indent`, `span`, `handle_token`, `highlight_code`), the
per-line mutation aggregator (`get_added_lines`,
`get_mutations_for_each_line`), and the hashed report filename
(`create_hashed_html_filename`, including a full MD5 implementation standing
for `hashlib.md5`).
-/

namespace HtmlMut

/-! ## Python string primitives used by the program -/

/-- Python `html.escape(text)` with its default `quote=True`, character by
character: `&` → `&amp;`, `<` → `&lt;`, `>` → `&gt;`, `"` → `&quot;`,
`'` → `&#x27;`; every other character is unchanged.  (CPython's sequential
`str.replace` calls are equivalent to this character map because `&` is
replaced first.) -/
def escapeChar (c : Char) : List Char :=
  if c = '&' then "&amp;".data
  else if c = '<' then "&lt;".data
  else if c = '>' then "&gt;".data
  else if c = '"' then "&quot;".data
  else if c = '\'' then "&#x27;".data
  else [c]

/-- Python `html.escape` lifted to strings. -/
def htmlEscape (s : String) : String := String.mk (s.data.flatMap escapeChar)

/-- The characters Python's `str.splitlines()` treats as line boundaries:
LF, VT, FF, CR, FS, GS, RS, NEL, LINE SEPARATOR and PARAGRAPH SEPARATOR
(and a `\r\n` pair counts as a single boundary). -/
def isLineBreak (c : Char) : Bool :=
  c.toNat = 0x0a || c.toNat = 0x0b || c.toNat = 0x0c || c.toNat = 0x0d ||
  c.toNat = 0x1c || c.toNat = 0x1d || c.toNat = 0x1e || c.toNat = 0x85 ||
  c.toNat = 0x2028 || c.toNat = 0x2029

/-- Split a character list at every `str.splitlines` boundary (`\r\n`
counting as one); always returns at least one piece, and a trailing
boundary leaves a trailing empty piece. -/
def pySplitLinesData : List Char → List (List Char)
  | [] => [[]]
  | [c] => if isLineBreak c then [[], []] else [[c]]
  | c :: c2 :: cs =>
    if c.toNat = 0x0d && c2.toNat = 0x0a then [] :: pySplitLinesData cs
    else if isLineBreak c then [] :: pySplitLinesData (c2 :: cs)
    else
      match pySplitLinesData (c2 :: cs) with
      | [] => [[c]]
      | h :: t => (c :: h) :: t

/-- Python `str.splitlines()`: split at the boundary characters and drop
the trailing empty piece left by a terminating boundary;
`''.splitlines() == []`. -/
def pySplitlines (s : String) : List String :=
  if s = "" then []
  else
    let ps := (pySplitLinesData s.data).map String.mk
    if ps.getLast? = some "" then ps.dropLast else ps

/-- Python `dict.get(k, default)` over an insertion-ordered association
list. -/
def dictGet {α : Type} (d : List (String × α)) (k : String) (dflt : α) : α :=
  match d.find? (fun e => e.1 == k) with
  | some e => e.2
  | none => dflt

/-! ## Status lattice (htmlmut.py lines 55-88) -/

/-- Mutant status tags.  The six enumerated constructors correspond to the
mutmut constants `BAD_SURVIVED`, `BAD_TIMEOUT`, `SKIPPED`, `UNTESTED`,
`OK_SUSPICIOUS`, `OK_KILLED` imported by `htmlmut.py`; `other` stands for
any status value outside this enumeration (the two dictionaries are keyed
only by the six constants, and the call sites use `.get` with a default for
every other key). -/
inductive MutantStatus where
  | BAD_SURVIVED
  | BAD_TIMEOUT
  | SKIPPED
  | UNTESTED
  | OK_SUSPICIOUS
  | OK_KILLED
  | other (tag : String)
deriving DecidableEq

/-- The `MUTANT_STATUS2TEXT` dictionary (lines 55-62) as a lookup; `none`
models a missing key. -/
def MUTANT_STATUS2TEXT : MutantStatus → Option String
  | .BAD_SURVIVED => some "Survivied"
  | .BAD_TIMEOUT => some "Timeout"
  | .SKIPPED => some "Skipped"
  | .UNTESTED => some "Untested"
  | .OK_SUSPICIOUS => some "Suspicious"
  | .OK_KILLED => some "Killed"
  | .other _ => none

/-- Model of `MUTANT_STATUS2TEXT.get(mutant.status, '--ERROR--')` (line 279). -/
def statusText (st : MutantStatus) : String :=
  (MUTANT_STATUS2TEXT st).getD "--ERROR--"

/-- The `MUTANT_STATUS2BG` dictionary (lines 64-71) as a lookup; `none`
models a missing key.  Note `SKIPPED` maps to `"bgray"` (single `g`),
exactly as in the source. -/
def MUTANT_STATUS2BG : MutantStatus → Option String
  | .BAD_SURVIVED => some "bgred"
  | .BAD_TIMEOUT => some "bgorange"
  | .SKIPPED => some "bgray"
  | .UNTESTED => some "bgred"
  | .OK_SUSPICIOUS => some "bggreen"
  | .OK_KILLED => some "bggreen"
  | .other _ => none

/-- Model of `MUTANT_STATUS2BG.get(mutant.status, 'bgred')` (line 280). -/
def statusBg (st : MutantStatus) : String :=
  (MUTANT_STATUS2BG st).getD "bgred"

/-- The `COMBINE_BGS` nested dictionary (lines 73-88), transcribed verbatim:
the outer gray row is keyed `"bgray"` (single `g`) while the gray column
inside every row is keyed `"bggray"` (double `g`), exactly as in the
source. -/
def COMBINE_BGS : List (String × List (String × String)) :=
  [ ("bgred",
      [("bgred", "bgred"), ("bgorange", "bgred"), ("bggray", "bgred"),
       ("bggreen", "bgred")]),
    ("bgorange",
      [("bgred", "bgred"), ("bgorange", "bgorange"), ("bggray", "bgorange"),
       ("bggreen", "bgorange")]),
    ("bgray",
      [("bgred", "bgred"), ("bgorange", "bgorange"), ("bggray", "bggray"),
       ("bggreen", "bggreen")]),
    ("bggreen",
      [("bgred", "bgred"), ("bgorange", "bgorange"), ("bggray", "bggreen"),
       ("bggreen", "bggreen")]) ]

/-- Model of `COMBINE_BGS.get(txt_cls, {}).get(bg, 'bgred')` (line 281). -/
def combineBg (txt_cls bg : String) : String :=
  dictGet (dictGet COMBINE_BGS txt_cls []) bg "bgred"

/-- The per-line severity fold of `create_html_from_source` (lines 274-281):
`txt_cls` starts at `"bggreen"` and, for each mutant on the line in order,
is combined with that mutant's background class. -/
def lineSeverity (statuses : List MutantStatus) : String :=
  statuses.foldl (fun cls st => combineBg cls (statusBg st)) "bggreen"

/-! ## Tokenizer/highlighter model (htmlmut.py lines 91-167)

`tokenize.generate_tokens` is modelled by its observable behavior: it
yields a list of tokens (kind, raw text, start `(row, col)`, stop
`(row, col)`) and then either ends normally or raises
`tokenize.TokenError`. -/

/-- The token kinds distinguished by `handle_token` plus the remaining
kinds the CPython tokenizer can emit (which all take the final `else`
branch). -/
inductive TokKind where
  | NAME
  | NUMBER
  | STRING
  | COMMENT
  | NL
  | NEWLINE
  | ENDMARKER
  | OP
  | INDENT
  | DEDENT
deriving DecidableEq

/-- A `tokenize.TokenInfo` as consumed by `highlight_code`: positions are
`(row, column)` pairs. -/
structure Tok where
  toknum : TokKind
  tokval : String
  start : Nat × Nat
  stop : Nat × Nat
deriving DecidableEq

/-- CPython's `keyword.kwlist` (the hard keywords; `keyword.iskeyword`
tests membership in exactly this list). -/
def kwlist : List String :=
  ["False", "None", "True", "and", "as", "assert", "async", "await",
   "break", "class", "continue", "def", "del", "elif", "else", "except",
   "finally", "for", "from", "global", "if", "import", "in", "is",
   "lambda", "nonlocal", "not", "or", "pass", "raise", "return", "try",
   "while", "with", "yield"]

/-- Python `keyword.iskeyword(tokval)`. -/
def iskeyword (s : String) : Bool := kwlist.contains s

/-- Model of `begin_indent(line, start, last_pos)` (lines 91-98): pad an empty
accumulator with the token's start column, a nonempty one with the gap
since the previous token's end column. -/
def begin_indent (line : String) (start : Nat × Nat) (last_pos : Nat) : String :=
  if line = "" then
    if start.2 > 0 then line ++ String.mk (List.replicate start.2 ' ') else line
  else
    if start.2 > last_pos then
      line ++ String.mk (List.replicate (start.2 - last_pos) ' ')
    else line

/-- Model of `span(text, key)` (lines 101-102): wrap HTML-escaped text in a span. -/
def span (text key : String) : String :=
  "<span class=\"" ++ key ++ "\">" ++ htmlEscape text ++ "</span>"

/-- Model of `span_key(val)` (lines 105-106). -/
def span_key (v : String) : String := span v "k"

/-- Model of `span_str(val)` (lines 109-110). -/
def span_str (v : String) : String := span v "s"

/-- Model of `span_num(val)` (lines 113-114). -/
def span_num (v : String) : String := span v "n"

/-- Model of `span_cmt(val)` (lines 117-118). -/
def span_cmt (v : String) : String := span v "c"

/-- Model of `handle_token(out, line, toknum, tokval, start, stop)` (lines 121-147).
Returns the pair (new `out`, new `line`): the Python function mutates `out`
in place and returns `line`.  In the multiline-string branch, Python's
`mline[0]` / `mline[-1]` would raise `IndexError` on an empty `mline`,
which cannot happen for a real STRING token; the `headD`/`getLastD`
defaults are unreachable there. -/
def handle_token (out : List String) (line : String) (t : Tok) :
    List String × String :=
  if t.toknum = .NAME ∧ iskeyword t.tokval = true then
    (out, line ++ span_key t.tokval)
  else if t.toknum = .NUMBER then
    (out, line ++ span_num t.tokval)
  else if t.toknum = .STRING then
    if t.stop.1 > t.start.1 then
      -- multiline string
      let mline := pySplitlines t.tokval
      let out1 := out ++ [line ++ span_str (mline.headD "")]
      let st := ((mline.drop 1).dropLast).foldl
        (fun (acc : List String × String) d =>
          (acc.1 ++ [acc.2 ++ span_str d], "")) (out1, "")
      (st.1, span_str (mline.getLastD ""))
    else
      (out, line ++ span_str t.tokval)
  else if t.toknum = .COMMENT then
    (out, line ++ span_cmt t.tokval)
  else if t.toknum = .NL ∨ t.toknum = .NEWLINE ∨ t.toknum = .ENDMARKER then
    (out ++ [line], "")
  else
    (out, line ++ htmlEscape t.tokval)

/-- One iteration of the `for` loop of `highlight_code` (lines 159-162) on
the state `(out, line, last_pos)`. -/
def hlStep (st : List String × String × Nat) (t : Tok) :
    List String × String × Nat :=
  let line1 := begin_indent st.2.1 t.start st.2.2
  let r := handle_token st.1 line1 t
  (r.1, r.2, t.stop.2)

/-- The state `(out, line, last_pos)` after the loop of `highlight_code`
has consumed the tokens `ts`. -/
def hlRun (ts : List Tok) : List String × String × Nat :=
  ts.foldl hlStep ([], "", 0)

/-- Model of `highlight_code(source)` (lines 150-167) over the modelled token
stream: the generator yields `ts` and then either ends normally
(`err = none`) or raises `tokenize.TokenError` (`err = some e`, with `e`
the `f'{exc}'` rendering of the exception).  On normal exhaustion a
nonempty accumulator is flushed (`if line:`); on an error the description
is appended after the output produced so far and the accumulator is
discarded, because the `if line:` flush sits inside the `try` and is never
reached. -/
def highlight_code (ts : List Tok) (err : Option String) : List String :=
  let st := hlRun ts
  match err with
  | none => if st.2.1 = "" then st.1 else st.1 ++ [st.2.1]
  | some e => st.1 ++ [e]

/-! ## Line-mutation aggregator (htmlmut.py lines 170-217) -/

/-- Python `'\n'.join(...)`. -/
def joinNl : List String → String
  | [] => ""
  | [x] => x
  | x :: xs => x ++ "\n" ++ joinNl xs

/-- Python `line.startswith(pre)`. -/
def pyStartsWith (l pre : String) : Bool := pre.data.isPrefixOf l.data

/-- Model of `get_added_lines(text)` (lines 170-175): keep the `+`-prefixed
lines of a unified diff, excluding `+++` header lines, strip the leading
`+` (`line[1:]`), and join with newlines. -/
def get_added_lines (text : String) : String :=
  joinNl (((pySplitlines text).filter
      (fun l => pyStartsWith l "+" && !pyStartsWith l "+++")).map
    (fun l => String.mk l.data.tail))

/-- The owning line of a mutant (the mutmut `Line` entity): raw text and
line number. -/
structure MutLine where
  line : String
  line_number : Nat
deriving DecidableEq

/-- A mutant record as used by the aggregator and the renderer (the mutmut
`Mutant` entity, restricted to the fields this program reads). -/
structure Mutant where
  id : Nat
  line : MutLine
  index : Nat
  status : MutantStatus
deriving DecidableEq

/-- Stable insertion of a mutant into a list sorted by ascending `id`. -/
def insertById (m : Mutant) : List Mutant → List Mutant
  | [] => [m]
  | x :: xs => if m.id ≤ x.id then m :: x :: xs else x :: insertById m xs

/-- Python `sorted(mutants, key=lambda m: m.id)` (line 200): stable sort by
ascending `id`. -/
def sortById : List Mutant → List Mutant
  | [] => []
  | m :: ms => insertById m (sortById ms)

/-- Python `k in d` on an insertion-ordered association list keyed by
line number. -/
def alContains {α : Type} (d : List (Nat × α)) (k : Nat) : Bool :=
  d.any (fun e => e.1 == k)

/-- Python `d[k]` (with a default for the impossible missing-key case) on
an insertion-ordered association list. -/
def alGet {α : Type} (d : List (Nat × α)) (k : Nat) (dflt : α) : α :=
  match d.find? (fun e => e.1 == k) with
  | some e => e.2
  | none => dflt

/-- Python `d[k] = v`: replace in place if the key exists, else append. -/
def alSet {α : Type} : List (Nat × α) → Nat → α → List (Nat × α)
  | [], k, v => [(k, v)]
  | e :: es, k, v => if e.1 = k then (k, v) :: es else e :: alSet es k v

/-- One aggregation entry: the Python two-element list
`[mutant, get_added_lines(diff)]`. -/
abbrev LineEntry := Mutant × String

/-- Model of `get_mutations_for_each_line(mutants, source, filename,
dict_synonyms)` (lines 198-217).  The external diff engine
`_get_unified_diff` (a mutmut collaborator, called with
`update_cache=False`) is abstracted as the argument `udiff`, already
applied to `source`, `filename` and `dict_synonyms`; the `print` on a
violated index invariant is modelled by accumulating the reported
`(line_number, index, line text)` triples in the second component. -/
def get_mutations_for_each_line (udiff : Mutant → String)
    (mutants : List Mutant) :
    List (Nat × List LineEntry) × List (Nat × Nat × String) :=
  (sortById mutants).foldl
    (fun acc m =>
      let diff := udiff m
      let d0 := if alContains acc.1 m.line.line_number then acc.1
                else alSet acc.1 m.line.line_number []
      let cur := alGet d0 m.line.line_number []
      if m.index = cur.length then
        (alSet d0 m.line.line_number (cur ++ [(m, get_added_lines diff)]),
         acc.2)
      else
        (d0, acc.2 ++ [(m.line.line_number, m.index, m.line.line)]))
    ([], [])

/-- Per-line entry lists built by the aggregator are correctly indexed: the
entry at position `i` is a mutant whose `index` field is `i`. -/
def IndexedEntries (l : List LineEntry) : Prop :=
  ∀ i (h : i < l.length), (l[i]).1.index = i

/-! ## Plain identifier-and-whitespace line layouts (claim C7) -/

/-- Original text of a source line consisting only of plain identifiers and
*space* whitespace: `items` lists `(startColumn, identifier)` pairs in
order, `pos` is the current column, and `tcol` is the column where the
terminating newline starts (so trailing spaces are covered too).  The
restriction to spaces is deliberate: `begin_indent`'s gap recovery can only
emit spaces, so the round-trip below holds exactly on this class — a line
whose whitespace includes a tab is reconstructed with spaces instead and
fails the round-trip (see the counterexample). -/
def renderLayout (pos : Nat) (items : List (Nat × String)) (tcol : Nat) :
    String :=
  match items with
  | [] => String.mk (List.replicate (tcol - pos) ' ')
  | (c, s) :: rest =>
    String.mk (List.replicate (c - pos) ' ') ++ s ++
      renderLayout (c + s.length) rest tcol

/-- Well-formedness of such a layout from column `pos`: each identifier is
nonempty, is not a keyword, and starts at or after the current column. -/
def wfLayout (pos : Nat) : List (Nat × String) → Bool
  | [] => true
  | (c, s) :: rest =>
    decide (pos ≤ c) && !(s == "") && !iskeyword s &&
      wfLayout (c + s.length) rest

/-- The NAME tokens the CPython tokenizer emits for such a line on row
`row`: identifier `s` starting at column `c` spans `[c, c + len s)`. -/
def layoutTokens (row : Nat) : List (Nat × String) → List Tok
  | [] => []
  | (c, s) :: rest =>
    ⟨.NAME, s, (row, c), (row, c + s.length)⟩ :: layoutTokens row rest

/-! ## MD5 (`hashlib.md5`) and hashed report filenames (claim C8)

The standard MD5 algorithm (RFC 1321), implemented over `Nat` with explicit
`% 2^32` truncation; it stands for Python's `hashlib.md5`.  Validated below
against the RFC test vectors. -/

/-- Truncation to 32 bits. -/
def w32 (n : Nat) : Nat := n % 4294967296

/-- Bitwise complement within 32 bits (for `x < 2^32`). -/
def not32 (x : Nat) : Nat := 4294967295 - x

/-- Left-rotation of a 32-bit value by `s` bits. -/
def rotl32 (x s : Nat) : Nat := w32 (x * 2 ^ s) + x / 2 ^ (32 - s)

/-- The 64 MD5 round constants `K[i] = floor(abs(sin(i+1)) * 2^32)`. -/
def md5K : List Nat :=
  [0xd76aa478, 0xe8c7b756, 0x242070db, 0xc1bdceee,
   0xf57c0faf, 0x4787c62a, 0xa8304613, 0xfd469501,
   0x698098d8, 0x8b44f7af, 0xffff5bb1, 0x895cd7be,
   0x6b901122, 0xfd987193, 0xa679438e, 0x49b40821,
   0xf61e2562, 0xc040b340, 0x265e5a51, 0xe9b6c7aa,
   0xd62f105d, 0x02441453, 0xd8a1e681, 0xe7d3fbc8,
   0x21e1cde6, 0xc33707d6, 0xf4d50d87, 0x455a14ed,
   0xa9e3e905, 0xfcefa3f8, 0x676f02d9, 0x8d2a4c8a,
   0xfffa3942, 0x8771f681, 0x6d9d6122, 0xfde5380c,
   0xa4beea44, 0x4bdecfa9, 0xf6bb4b60, 0xbebfbc70,
   0x289b7ec6, 0xeaa127fa, 0xd4ef3085, 0x04881d05,
   0xd9d4d039, 0xe6db99e5, 0x1fa27cf8, 0xc4ac5665,
   0xf4292244, 0x432aff97, 0xab9423a7, 0xfc93a039,
   0x655b59c3, 0x8f0ccc92, 0xffeff47d, 0x85845dd1,
   0x6fa87e4f, 0xfe2ce6e0, 0xa3014314, 0x4e0811a1,
   0xf7537e82, 0xbd3af235, 0x2ad7d2bb, 0xeb86d391]

/-- The 64 MD5 per-round left-rotation amounts. -/
def md5S : List Nat :=
  [7, 12, 17, 22, 7, 12, 17, 22, 7, 12, 17, 22, 7, 12, 17, 22,
   5, 9, 14, 20, 5, 9, 14, 20, 5, 9, 14, 20, 5, 9, 14, 20,
   4, 11, 16, 23, 4, 11, 16, 23, 4, 11, 16, 23, 4, 11, 16, 23,
   6, 10, 15, 21, 6, 10, 15, 21, 6, 10, 15, 21, 6, 10, 15, 21]

/-- The MD5 nonlinear functions F, G, H, I selected by round index. -/
def md5F (i b c d : Nat) : Nat :=
  if i < 16 then (b &&& c) ||| (not32 b &&& d)
  else if i < 32 then (d &&& b) ||| (not32 d &&& c)
  else if i < 48 then b ^^^ c ^^^ d
  else c ^^^ (b ||| not32 d)

/-- The MD5 message-word index for round `i`. -/
def md5G (i : Nat) : Nat :=
  if i < 16 then i
  else if i < 32 then (5 * i + 1) % 16
  else if i < 48 then (3 * i + 5) % 16
  else (7 * i) % 16

/-- The `k` little-endian bytes of `n`. -/
def leBytes (k n : Nat) : List Nat :=
  match k with
  | 0 => []
  | k + 1 => n % 256 :: leBytes k (n / 256)

/-- Group bytes into 32-bit little-endian words. -/
def toWords : List Nat → List Nat
  | b0 :: b1 :: b2 :: b3 :: rest =>
    (b0 + 256 * (b1 + 256 * (b2 + 256 * b3))) :: toWords rest
  | _ => []

/-- One MD5 round on the state `(a, b, c, d)`. -/
def md5Round (M : List Nat) (st : Nat × Nat × Nat × Nat) (i : Nat) :
    Nat × Nat × Nat × Nat :=
  let f := w32 (md5F i st.2.1 st.2.2.1 st.2.2.2 + st.1 + md5K.getD i 0 +
    M.getD (md5G i) 0)
  (st.2.2.2, w32 (st.2.1 + rotl32 f (md5S.getD i 0)), st.2.1, st.2.2.1)

/-- Process one 64-byte block. -/
def md5Block (st : Nat × Nat × Nat × Nat) (block : List Nat) :
    Nat × Nat × Nat × Nat :=
  let M := toWords block
  let r := (List.range 64).foldl (md5Round M) st
  (w32 (st.1 + r.1), w32 (st.2.1 + r.2.1), w32 (st.2.2.1 + r.2.2.1),
   w32 (st.2.2.2 + r.2.2.2))

/-- MD5 padding: `0x80`, zeros to 56 mod 64, then the 8-byte little-endian
bit length. -/
def md5Pad (msg : List Nat) : List Nat :=
  let l := msg.length
  let zeros := (64 + 56 - (l + 1) % 64) % 64
  msg ++ [0x80] ++ List.replicate zeros 0 ++ leBytes 8 (l * 8)

/-- Split into 64-byte chunks (`fuel` bounds the recursion; callers pass
the list length). -/
def chunks64 : Nat → List Nat → List (List Nat)
  | 0, _ => []
  | _, [] => []
  | fuel + 1, l => l.take 64 :: chunks64 fuel (l.drop 64)

/-- `hashlib.md5(msg).digest()`: the 16 output bytes. -/
def md5Bytes (msg : List Nat) : List Nat :=
  let padded := md5Pad msg
  let r := (chunks64 padded.length padded).foldl md5Block
    (0x67452301, 0xefcdab89, 0x98badcfe, 0x10325476)
  leBytes 4 r.1 ++ leBytes 4 r.2.1 ++ leBytes 4 r.2.2.1 ++ leBytes 4 r.2.2.2

/-- The 32 hex digits (nibbles) of the MD5 digest, most significant nibble
of each byte first. -/
def md5Nibbles (msg : List Nat) : List Nat :=
  (md5Bytes msg).flatMap (fun b => [b / 16 % 16, b % 16])

/-- Lower-case hex digit character. -/
def hexChar (n : Nat) : Char := "0123456789abcdef".data.getD n '0'

/-- `hashlib.md5(msg).hexdigest()`. -/
def md5hexdigest (msg : List Nat) : String :=
  String.mk ((md5Nibbles msg).map hexChar)

/-- UTF-8 encoding of one character as byte values. -/
def utf8Char (c : Char) : List Nat :=
  let n := c.toNat
  if n < 0x80 then [n]
  else if n < 0x800 then [0xC0 + n / 0x40, 0x80 + n % 0x40]
  else if n < 0x10000 then
    [0xE0 + n / 0x1000, 0x80 + n / 0x40 % 0x40, 0x80 + n % 0x40]
  else
    [0xF0 + n / 0x40000, 0x80 + n / 0x1000 % 0x40, 0x80 + n / 0x40 % 0x40,
     0x80 + n % 0x40]

/-- Python `s.encode('utf-8')` as a byte list. -/
def utf8Encode (s : String) : List Nat := s.data.flatMap utf8Char

/-- Python `s[-n:]`: the last `n` characters (the whole string when it is
shorter). -/
def pyTakeLast (s : String) (n : Nat) : String :=
  String.mk (s.data.drop (s.data.length - n))

/-- Model of `create_hashed_html_filename(file_path, out_path, prefix)`
(lines 178-186).  `pathlib.Path(file_path).resolve()` is filesystem I/O,
so the function is modelled on its result, given as the resolved parent
directory string `parent` and the file name `name`; the digest is MD5 over
the UTF-8 bytes of `parent`, truncated to its last 12 hex digits
(`m.hexdigest()[-12:]`), and `name` has `.` replaced by `_`.  Returns the
report file name (the final `out_path / out_fn` is directory placement
only). -/
def create_hashed_html_filename (parent name pfx : String) : String :=
  pfx ++ pyTakeLast (md5hexdigest (utf8Encode parent)) 12 ++ "_" ++
    String.mk (name.data.map (fun c => if c = '.' then '_' else c)) ++
    ".html"

/-- The last-12-hex-digits digest read as a number below `16^12`; used to
count the possible truncated digests. -/
def digestNat (parent : String) : Nat :=
  ((md5Nibbles (utf8Encode parent)).drop 20).foldl
    (fun acc n => 16 * acc + n) 0

/-! ## Theorems on the status lattice (claims C1, C2, C9) -/

/-- C1 (code-bug evidence): the combination function does not realize the
gray rules of the stated merge table.  `MUTANT_STATUS2BG` assigns the gray
class the key `"bgray"`, but the columns of `COMBINE_BGS` spell gray
`"bggray"`, so an incoming gray class always falls into the
unrecognized-combination fallback `"bgred"`: green+gray and orange+gray
yield red instead of green resp. orange, and a line whose only mutant is
`SKIPPED` is classified red instead of green. -/
theorem combineBg_gray_mismatch :
    statusBg .SKIPPED = "bgray" ∧
    combineBg "bggreen" "bgray" = "bgred" ∧
    combineBg "bgorange" "bgray" = "bgred" ∧
    combineBg "bggray" "bggray" = "bgred" ∧
    lineSeverity [.OK_KILLED, .SKIPPED] = "bgred" ∧
    lineSeverity [.SKIPPED] = "bgred" :=
  ⟨rfl, rfl, rfl, rfl, rfl, rfl⟩

/-- C2 (code-bug evidence): `combine(X, red) = red` does hold for every
color class (under either spelling of gray), and `combine(X, X) = X` holds
for red, orange and green — but idempotence fails for the gray class:
`combine(gray, gray) = red` whether gray is spelled `"bgray"` (the key
`MUTANT_STATUS2BG` produces, whose row exists but which is no column) or
`"bggray"` (the column spelling, which is no row). -/
theorem combineBg_idem_fails_on_gray :
    combineBg "bgred" "bgred" = "bgred" ∧
    combineBg "bgorange" "bgorange" = "bgorange" ∧
    combineBg "bggreen" "bggreen" = "bggreen" ∧
    combineBg "bgray" "bgray" = "bgred" ∧
    combineBg "bggray" "bggray" = "bgred" ∧
    combineBg "bgorange" "bgred" = "bgred" ∧
    combineBg "bgray" "bgred" = "bgred" ∧
    combineBg "bggray" "bgred" = "bgred" ∧
    combineBg "bggreen" "bgred" = "bgred" :=
  ⟨rfl, rfl, rfl, rfl, rfl, rfl, rfl, rfl, rfl⟩

/-- C9: the status → label and status → color lookups are total `dict.get`
calls and never raise: each of the six enumerated statuses maps to its table
entry, and every status outside the enumeration maps to the sentinel label
`--ERROR--` and to the worst color class `bgred`; moreover combining any
reachable background class with `bgred` yields `bgred` (red is the worst
class). -/
theorem status_lookup_total :
    (∀ s : String, statusText (.other s) = "--ERROR--") ∧
    (∀ s : String, statusBg (.other s) = "bgred") ∧
    statusText .BAD_SURVIVED = "Survivied" ∧
    statusText .BAD_TIMEOUT = "Timeout" ∧
    statusText .SKIPPED = "Skipped" ∧
    statusText .UNTESTED = "Untested" ∧
    statusText .OK_SUSPICIOUS = "Suspicious" ∧
    statusText .OK_KILLED = "Killed" ∧
    statusBg .BAD_SURVIVED = "bgred" ∧
    statusBg .BAD_TIMEOUT = "bgorange" ∧
    statusBg .SKIPPED = "bgray" ∧
    statusBg .UNTESTED = "bgred" ∧
    statusBg .OK_SUSPICIOUS = "bggreen" ∧
    statusBg .OK_KILLED = "bggreen" ∧
    (∀ st : MutantStatus, combineBg (statusBg st) "bgred" = "bgred") := by
  refine ⟨fun s => rfl, fun s => rfl, rfl, rfl, rfl, rfl, rfl, rfl, rfl, rfl,
    rfl, rfl, rfl, rfl, fun st => ?_⟩
  cases st <;> rfl

/-! ## Theorems on the highlighter (claims C4, C5, C6, C10) -/

/-- The interior-lines loop of the multiline-string branch of
`handle_token`: starting from an empty accumulator it flushes one
span-wrapped line per interior fragment. -/
theorem mstrFold_eq (ds : List String) (out : List String) :
    ds.foldl (fun (acc : List String × String) d =>
      (acc.1 ++ [acc.2 ++ span_str d], "")) (out, "") =
      (out ++ ds.map span_str, "") := by
  induction ds generalizing out with
  | nil => simp
  | cons d ds ih => simp [ih]

/-- Lemma: `handle_token` only ever appends to `out`. -/
theorem handle_token_fst_append (out : List String) (line : String) (t : Tok) :
    ∃ l, (handle_token out line t).1 = out ++ l := by
  unfold handle_token
  split
  · exact ⟨[], by simp⟩
  split
  · exact ⟨[], by simp⟩
  split
  · split
    · refine ⟨[line ++ span_str ((pySplitlines t.tokval).headD "")] ++
        ((pySplitlines t.tokval).drop 1).dropLast.map span_str, ?_⟩
      simp only [mstrFold_eq]
      simp
    · exact ⟨[], by simp⟩
  split
  · exact ⟨[], by simp⟩
  split
  · exact ⟨[line], rfl⟩
  · exact ⟨[], by simp⟩

/-- Lemma: the loop of `highlight_code` only ever appends to `out`. -/
theorem hlLoop_fst_append (ts : List Tok) (s : List String × String × Nat) :
    ∃ l, (ts.foldl hlStep s).1 = s.1 ++ l := by
  induction ts generalizing s with
  | nil => exact ⟨[], by simp⟩
  | cons t ts ih =>
    obtain ⟨l1, h1⟩ := handle_token_fst_append s.1 (begin_indent s.2.1 t.start s.2.2) t
    obtain ⟨l2, h2⟩ := ih (hlStep s t)
    exact ⟨l1 ++ l2, by rw [List.foldl_cons, h2]; show (hlStep s t).1 ++ l2 = _
                        rw [hlStep, h1, List.append_assoc]⟩

/-- C10: `highlight_code` never returns an empty list.  When the token
stream ends normally it contains an `ENDMARKER` token (CPython's tokenizer
always emits one, even for empty input), whose flush makes `out` nonempty;
when it ends in a lexical error the error pseudo-line is appended.  Hence
`hl_item[0]` in `create_html_from_source` (line 285) never fails, even for
an empty mutant fragment. -/
theorem highlight_code_ne_nil (ts : List Tok) (err : Option String)
    (h : err = none → ∃ t ∈ ts, t.toknum = TokKind.ENDMARKER) :
    highlight_code ts err ≠ [] := by
  cases err with
  | some e => simp [highlight_code]
  | none =>
    obtain ⟨t, hmem, hek⟩ := h rfl
    obtain ⟨a, b, rfl⟩ := List.append_of_mem hmem
    have hout : (hlRun (a ++ t :: b)).1 ≠ [] := by
      unfold hlRun
      rw [List.foldl_append, List.foldl_cons]
      obtain ⟨l2, h2⟩ := hlLoop_fst_append b (hlStep (List.foldl hlStep ([], "", 0) a) t)
      rw [h2]
      have : (hlStep (List.foldl hlStep ([], "", 0) a) t).1 =
          (List.foldl hlStep ([], "", 0) a).1 ++
            [begin_indent (List.foldl hlStep ([], "", 0) a).2.1 t.start
              (List.foldl hlStep ([], "", 0) a).2.2] := by
        rw [hlStep]
        show (handle_token _ _ t).1 = _
        unfold handle_token
        rw [hek]
        simp
      rw [this]
      simp
    simp only [highlight_code]
    split <;> simp [hout]

/-- Witness for `highlight_code_ne_nil` at the token stream of the empty
source (a single `ENDMARKER`). -/
theorem highlight_code_ne_nil_witness :
    highlight_code [⟨TokKind.ENDMARKER, "", (1, 0), (1, 0)⟩] none ≠ [] :=
  highlight_code_ne_nil [⟨TokKind.ENDMARKER, "", (1, 0), (1, 0)⟩] none
    (fun _ => ⟨⟨TokKind.ENDMARKER, "", (1, 0), (1, 0)⟩, by simp, rfl⟩)

/-- C4 counterexample: tokenizing the source `x = """abc` yields NAME `x`
and OP `=` and then raises
`TokenError('EOF in multi-line string', (1, 4))`.  At that point the
accumulator holds the partial line `x =`, but `highlight_code` returns only
the error pseudo-line: the partially accumulated current line is not in the
output, contradicting the claim. -/
theorem highlight_error_partial_line_lost :
    highlight_code
      [⟨TokKind.NAME, "x", (1, 0), (1, 1)⟩, ⟨TokKind.OP, "=", (1, 2), (1, 3)⟩]
      (some "('EOF in multi-line string', (1, 4))")
      = ["('EOF in multi-line string', (1, 4))"] ∧
    (hlRun [⟨TokKind.NAME, "x", (1, 0), (1, 1)⟩,
      ⟨TokKind.OP, "=", (1, 2), (1, 3)⟩]).2.1 = "x =" ∧
    "x =" ∉ highlight_code
      [⟨TokKind.NAME, "x", (1, 0), (1, 1)⟩, ⟨TokKind.OP, "=", (1, 2), (1, 3)⟩]
      (some "('EOF in multi-line string', (1, 4))") :=
  ⟨rfl, rfl, by decide⟩

/-- C4 (amended): on a lexical error `highlight_code` appends the error's
description as a final pseudo-line after every line completed before the
error (the completed lines are exactly a prefix of what an error-free run
over the same tokens would return), but the partially accumulated current
line is discarded, because the `if line:` flush sits inside the `try`. -/
theorem highlight_error_graceful (ts : List Tok) (e : String) :
    highlight_code ts (some e) = (hlRun ts).1 ++ [e] ∧
    (hlRun ts).1 <+: highlight_code ts none := by
  refine ⟨rfl, ?_⟩
  simp only [highlight_code]
  split
  · exact List.prefix_refl _
  · exact List.prefix_append _ _

/-- C5 counterexample: the STRING token of the literal
`"""a<FF>b<LF>cd"""` (a form feed inside the literal) spans physical lines
1 to 2, so the claim predicts `2 - 1 + 1 = 2` SourceLines attributable to
the token — but `str.splitlines` splits the raw text into 3 fragments
(`\x0c` is a `splitlines` boundary while not a physical line break), and
the code flushes 2 completed lines and leaves a third fragment in the
accumulator: 3 attributable lines, and the flushed count differs from
`b - a`. -/
theorem multiline_formfeed_extra_line :
    (pySplitlines "\"\"\"a\x0cb\ncd\"\"\"").length = 3 ∧
    (handle_token [] ""
      ⟨TokKind.STRING, "\"\"\"a\x0cb\ncd\"\"\"", (1, 4), (2, 5)⟩).1.length = 2 ∧
    (handle_token [] ""
      ⟨TokKind.STRING, "\"\"\"a\x0cb\ncd\"\"\"", (1, 4), (2, 5)⟩).1.length ≠
      ([] : List String).length +
        ((⟨TokKind.STRING, "\"\"\"a\x0cb\ncd\"\"\"", (1, 4),
            (2, 5)⟩ : Tok).stop.1 -
         (⟨TokKind.STRING, "\"\"\"a\x0cb\ncd\"\"\"", (1, 4),
            (2, 5)⟩ : Tok).start.1) :=
  ⟨by decide, by decide, by decide⟩

/-- C5 (amended): processing a STRING token whose literal spans physical
lines `a < b`, with `k` the number of fragments `str.splitlines` yields on
the raw token text (`k = b - a + 1` when the literal's only line boundaries
are newlines, but larger when it contains further `splitlines` boundaries
such as a form feed): the first fragment is appended to the accumulated
line and that line is flushed, each interior fragment is flushed as its own
completed line, and the last fragment becomes the new accumulator so it
merges with the tokens that follow.  `out` thus grows by exactly `k - 1`
completed lines here, and the accumulator holds the `k`-th line
attributable to the token. -/
theorem multiline_string_token (out : List String) (line : String) (t : Tok)
    (hk : t.toknum = TokKind.STRING)
    (hml : t.start.1 < t.stop.1)
    (hlen : 2 ≤ (pySplitlines t.tokval).length) :
    handle_token out line t =
      (out ++ (line ++ span_str ((pySplitlines t.tokval).headD "")) ::
        ((pySplitlines t.tokval).drop 1).dropLast.map span_str,
       span_str ((pySplitlines t.tokval).getLastD "")) ∧
    (handle_token out line t).1.length =
      out.length + ((pySplitlines t.tokval).length - 1) := by
  have heq : handle_token out line t =
      (out ++ (line ++ span_str ((pySplitlines t.tokval).headD "")) ::
        ((pySplitlines t.tokval).drop 1).dropLast.map span_str,
       span_str ((pySplitlines t.tokval).getLastD "")) := by
    unfold handle_token
    rw [if_neg (by simp [hk]), if_neg (by simp [hk]), if_pos hk, if_pos hml]
    simp only [mstrFold_eq]
    simp
  refine ⟨heq, ?_⟩
  rw [heq]
  simp only [List.length_append, List.length_cons, List.length_map,
    List.length_dropLast, List.length_drop]
  omega

/-- Witness for `multiline_string_token`: the STRING token of the literal
`"""ab`⏎`cd"""`, spanning lines 1 to 2 with 2 fragments. -/
theorem multiline_string_token_witness :
    (1 : Nat) < 2 ∧
    2 ≤ (pySplitlines "\"\"\"ab\ncd\"\"\"").length ∧
    handle_token [] "" ⟨TokKind.STRING, "\"\"\"ab\ncd\"\"\"", (1, 0), (2, 5)⟩ =
      ([] ++ ("" ++ span_str ((pySplitlines "\"\"\"ab\ncd\"\"\"").headD "")) ::
        ((pySplitlines "\"\"\"ab\ncd\"\"\"").drop 1).dropLast.map span_str,
       span_str ((pySplitlines "\"\"\"ab\ncd\"\"\"").getLastD "")) ∧
    (handle_token [] ""
      ⟨TokKind.STRING, "\"\"\"ab\ncd\"\"\"", (1, 0), (2, 5)⟩).1.length =
      ([] : List String).length +
        ((pySplitlines "\"\"\"ab\ncd\"\"\"").length - 1) :=
  ⟨by decide, by decide,
    (multiline_string_token [] "" ⟨TokKind.STRING, "\"\"\"ab\ncd\"\"\"",
      (1, 0), (2, 5)⟩ rfl (by decide) (by decide)).1,
    (multiline_string_token [] "" ⟨TokKind.STRING, "\"\"\"ab\ncd\"\"\"",
      (1, 0), (2, 5)⟩ rfl (by decide) (by decide)).2⟩

/-- C6 counterexample: the error description appended on a lexical error is
inserted verbatim, not HTML-escaped: the real description of an
unterminated string at end of input contains apostrophes, which
`html.escape` (with its default `quote=True`) would rewrite, so the
inserted pseudo-line is not the HTML-escape of any escaping pass. -/
theorem error_description_not_escaped :
    highlight_code [] (some "('EOF in multi-line string', (1, 4))") =
      ["('EOF in multi-line string', (1, 4))"] ∧
    htmlEscape "('EOF in multi-line string', (1, 4))" ≠
      "('EOF in multi-line string', (1, 4))" :=
  ⟨rfl, by decide⟩

/-- C6 (amended): literal token text is HTML-escaped exactly once — each
span branch of `handle_token` inserts `htmlEscape` of the raw token text
between fixed wrapper tags that add no further escaping, and the default
branch inserts `htmlEscape` of the raw text bare — while the error
description appended by `highlight_code` on a lexical error is inserted
verbatim, without escaping. -/
theorem inserted_text_escaped_once (out : List String) (line : String)
    (t : Tok) (ts : List Tok) (e : String) :
    (t.toknum = TokKind.NAME → iskeyword t.tokval = true →
      handle_token out line t =
        (out, line ++ ("<span class=\"k\">" ++ htmlEscape t.tokval ++ "</span>"))) ∧
    (t.toknum = TokKind.NUMBER →
      handle_token out line t =
        (out, line ++ ("<span class=\"n\">" ++ htmlEscape t.tokval ++ "</span>"))) ∧
    (t.toknum = TokKind.STRING → ¬t.start.1 < t.stop.1 →
      handle_token out line t =
        (out, line ++ ("<span class=\"s\">" ++ htmlEscape t.tokval ++ "</span>"))) ∧
    (t.toknum = TokKind.COMMENT →
      handle_token out line t =
        (out, line ++ ("<span class=\"c\">" ++ htmlEscape t.tokval ++ "</span>"))) ∧
    ((t.toknum = TokKind.OP ∨ t.toknum = TokKind.INDENT ∨
        t.toknum = TokKind.DEDENT ∨
        (t.toknum = TokKind.NAME ∧ iskeyword t.tokval = false)) →
      handle_token out line t = (out, line ++ htmlEscape t.tokval)) ∧
    (highlight_code ts (some e)).getLast? = some e := by
  refine ⟨?_, ?_, ?_, ?_, ?_, ?_⟩
  · intro hk hkw
    have h : ("<span class=\"" ++ "k" ++ "\">" : String) = "<span class=\"k\">" := rfl
    simp [handle_token, span_key, span, hk, hkw, h]
  · intro hk
    have h : ("<span class=\"" ++ "n" ++ "\">" : String) = "<span class=\"n\">" := rfl
    simp [handle_token, span_num, span, hk, h]
  · intro hk hml
    have h : ("<span class=\"" ++ "s" ++ "\">" : String) = "<span class=\"s\">" := rfl
    simp [handle_token, span_str, span, hk, hml, h]
  · intro hk
    have h : ("<span class=\"" ++ "c" ++ "\">" : String) = "<span class=\"c\">" := rfl
    simp [handle_token, span_cmt, span, hk, h]
  · rintro (hk | hk | hk | ⟨hk, hkw⟩)
    · simp [handle_token, hk]
    · simp [handle_token, hk]
    · simp [handle_token, hk]
    · simp [handle_token, hk, hkw]
  · simp [highlight_code]

/-! ## Theorems on the aggregator (claim C3) -/

/-- Lemma: membership after `alSet`. -/
theorem mem_alSet {α : Type} (d : List (Nat × α)) (k : Nat) (v : α)
    (e : Nat × α) (he : e ∈ alSet d k v) : e = (k, v) ∨ e ∈ d := by
  induction d with
  | nil => simpa [alSet] using he
  | cons f fs ih =>
    simp only [alSet] at he
    by_cases h : f.1 = k
    · rw [if_pos h, List.mem_cons] at he
      rcases he with he | he
      · exact Or.inl he
      · exact Or.inr (List.mem_cons_of_mem _ he)
    · rw [if_neg h, List.mem_cons] at he
      rcases he with he | he
      · exact Or.inr (he ▸ List.mem_cons_self _ _)
      · rcases ih he with h1 | h1
        · exact Or.inl h1
        · exact Or.inr (List.mem_cons_of_mem _ h1)

/-- Lemma: `alGet` returns the default or the value of a present entry. -/
theorem alGet_cases {α : Type} (d : List (Nat × α)) (k : Nat) (dflt : α) :
    alGet d k dflt = dflt ∨ (k, alGet d k dflt) ∈ d := by
  unfold alGet
  cases hf : d.find? (fun e => e.1 == k) with
  | none => exact Or.inl rfl
  | some e =>
    right
    have hm := List.mem_of_find?_eq_some hf
    have hp := List.find?_some hf
    rcases e with ⟨k0, v⟩
    simp only [Nat.beq_eq_true_eq] at hp
    subst hp
    exact hm

/-- Lemma: appending one entry with the next index preserves
`IndexedEntries`. -/
theorem IndexedEntries.append_one {l : List LineEntry} (hl : IndexedEntries l)
    (m : Mutant) (s : String) (hm : m.index = l.length) :
    IndexedEntries (l ++ [(m, s)]) := by
  intro i h
  rw [List.length_append, List.length_singleton] at h
  rcases Nat.lt_or_ge i l.length with hi | hi
  · rw [List.getElem_append_left hi]
    exact hl i hi
  · have hil : i = l.length := by omega
    subst hil
    simp only [List.getElem_concat_length]
    exact hm

/-- Lemma: the empty entry list is indexed. -/
theorem IndexedEntries.nil : IndexedEntries [] := by
  intro i h
  simp at h

/-- C3: the aggregator maintains the index invariant — an entry is inserted
at a line's list only when the mutant's index equals the list's current
length, so in every produced per-line list the `i`-th entry carries mutant
index `i`; and concretely, three mutants with indices `[0, 1, 2]` on one
line (processed in ascending `id` order) produce exactly the 3 entries in
order with no report, while indices `[0, 2]` produce exactly 1 entry plus
the report `(line_number, index, line text)` for the skipped entry —
without raising, and processing continues. -/
theorem get_mutations_for_each_line_spec (udiff : Mutant → String)
    (mutants : List Mutant) (ln : Nat) (txt : String)
    (s1 s2 s3 : MutantStatus) (id1 id2 id3 : Nat)
    (h12 : id1 ≤ id2) (h23 : id2 ≤ id3) :
    (∀ e ∈ (get_mutations_for_each_line udiff mutants).1, IndexedEntries e.2) ∧
    get_mutations_for_each_line udiff
        [⟨id1, ⟨txt, ln⟩, 0, s1⟩, ⟨id2, ⟨txt, ln⟩, 1, s2⟩,
         ⟨id3, ⟨txt, ln⟩, 2, s3⟩] =
      ([(ln, [(⟨id1, ⟨txt, ln⟩, 0, s1⟩,
                get_added_lines (udiff ⟨id1, ⟨txt, ln⟩, 0, s1⟩)),
              (⟨id2, ⟨txt, ln⟩, 1, s2⟩,
                get_added_lines (udiff ⟨id2, ⟨txt, ln⟩, 1, s2⟩)),
              (⟨id3, ⟨txt, ln⟩, 2, s3⟩,
                get_added_lines (udiff ⟨id3, ⟨txt, ln⟩, 2, s3⟩))])], []) ∧
    get_mutations_for_each_line udiff
        [⟨id1, ⟨txt, ln⟩, 0, s1⟩, ⟨id3, ⟨txt, ln⟩, 2, s3⟩] =
      ([(ln, [(⟨id1, ⟨txt, ln⟩, 0, s1⟩,
                get_added_lines (udiff ⟨id1, ⟨txt, ln⟩, 0, s1⟩))])],
       [(ln, 2, txt)]) := by
  refine ⟨?_, ?_, ?_⟩
  · unfold get_mutations_for_each_line
    have main : ∀ (ms : List Mutant)
        (acc : List (Nat × List LineEntry) × List (Nat × Nat × String)),
        (∀ e ∈ acc.1, IndexedEntries e.2) →
        ∀ e ∈ (ms.foldl
          (fun acc m =>
            let diff := udiff m
            let d0 := if alContains acc.1 m.line.line_number then acc.1
                      else alSet acc.1 m.line.line_number []
            let cur := alGet d0 m.line.line_number []
            if m.index = cur.length then
              (alSet d0 m.line.line_number
                (cur ++ [(m, get_added_lines diff)]), acc.2)
            else
              (d0, acc.2 ++ [(m.line.line_number, m.index, m.line.line)]))
          acc).1, IndexedEntries e.2 := by
      intro ms
      induction ms with
      | nil => intro acc hacc; simpa using hacc
      | cons m ms ih =>
        intro acc hacc
        rw [List.foldl_cons]
        apply ih
        intro e he
        have hd0 : ∀ f ∈ (if alContains acc.1 m.line.line_number then acc.1
            else alSet acc.1 m.line.line_number []), IndexedEntries f.2 := by
          intro f hf
          split at hf
          · exact hacc f hf
          · rcases mem_alSet _ _ _ _ hf with h1 | h1
            · rw [h1]; exact IndexedEntries.nil
            · exact hacc f h1
        set d0 := if alContains acc.1 m.line.line_number then acc.1
                  else alSet acc.1 m.line.line_number [] with hd0def
        simp only at he
        split at he
        case isTrue hidx =>
          rcases mem_alSet _ _ _ _ he with h1 | h1
          · rw [h1]
            have hcur : IndexedEntries (alGet d0 m.line.line_number []) := by
              rcases alGet_cases d0 m.line.line_number [] with h2 | h2
              · rw [h2]; exact IndexedEntries.nil
              · exact hd0 _ h2
            exact hcur.append_one m _ hidx
          · exact hd0 e h1
        case isFalse hidx =>
          exact hd0 e he
    intro e he
    exact main (sortById mutants) ([], []) (by simp) e he
  · have h13 : id1 ≤ id3 := le_trans h12 h23
    simp [get_mutations_for_each_line, sortById, insertById, h12, h23, h13,
      alContains, alSet, alGet]
  · have h13 : id1 ≤ id3 := le_trans h12 h23
    simp [get_mutations_for_each_line, sortById, insertById, h13,
      alContains, alSet, alGet]

/-- Witness for `get_mutations_for_each_line_spec`: ids 1 < 2 < 3 on
line 5, with a constant diff engine. -/
theorem get_mutations_for_each_line_spec_witness :
    get_mutations_for_each_line (fun _ => "+x = 2")
        [⟨1, ⟨"x = 1", 5⟩, 0, MutantStatus.OK_KILLED⟩,
         ⟨2, ⟨"x = 1", 5⟩, 1, MutantStatus.BAD_SURVIVED⟩,
         ⟨3, ⟨"x = 1", 5⟩, 2, MutantStatus.SKIPPED⟩] =
      ([(5, [(⟨1, ⟨"x = 1", 5⟩, 0, MutantStatus.OK_KILLED⟩,
               get_added_lines ((fun _ => "+x = 2")
                 (⟨1, ⟨"x = 1", 5⟩, 0, MutantStatus.OK_KILLED⟩ : Mutant))),
             (⟨2, ⟨"x = 1", 5⟩, 1, MutantStatus.BAD_SURVIVED⟩,
               get_added_lines ((fun _ => "+x = 2")
                 (⟨2, ⟨"x = 1", 5⟩, 1, MutantStatus.BAD_SURVIVED⟩ : Mutant))),
             (⟨3, ⟨"x = 1", 5⟩, 2, MutantStatus.SKIPPED⟩,
               get_added_lines ((fun _ => "+x = 2")
                 (⟨3, ⟨"x = 1", 5⟩, 2, MutantStatus.SKIPPED⟩ : Mutant)))])],
       []) ∧
    get_mutations_for_each_line (fun _ => "+x = 2")
        [⟨1, ⟨"x = 1", 5⟩, 0, MutantStatus.OK_KILLED⟩,
         ⟨3, ⟨"x = 1", 5⟩, 2, MutantStatus.SKIPPED⟩] =
      ([(5, [(⟨1, ⟨"x = 1", 5⟩, 0, MutantStatus.OK_KILLED⟩,
               get_added_lines ((fun _ => "+x = 2")
                 (⟨1, ⟨"x = 1", 5⟩, 0, MutantStatus.OK_KILLED⟩ : Mutant)))])],
       [(5, 2, "x = 1")]) :=
  ⟨(get_mutations_for_each_line_spec (fun _ => "+x = 2") [] 5 "x = 1"
      MutantStatus.OK_KILLED MutantStatus.BAD_SURVIVED MutantStatus.SKIPPED
      1 2 3 (by decide) (by decide)).2.1,
   (get_mutations_for_each_line_spec (fun _ => "+x = 2") [] 5 "x = 1"
      MutantStatus.OK_KILLED MutantStatus.BAD_SURVIVED MutantStatus.SKIPPED
      1 2 3 (by decide) (by decide)).2.2⟩

/-- Witness for `inserted_text_escaped_once` at a keyword NAME token, an
OP token, and a concrete error description. -/
theorem inserted_text_escaped_once_witness :
    (handle_token [] "" ⟨TokKind.NAME, "if", (1, 0), (1, 2)⟩ =
      ([], "" ++ ("<span class=\"k\">" ++ htmlEscape "if" ++ "</span>"))) ∧
    (handle_token [] "" ⟨TokKind.OP, "<", (1, 0), (1, 1)⟩ =
      ([], "" ++ htmlEscape "<")) ∧
    (highlight_code [] (some "('EOF in multi-line statement',)")).getLast? =
      some "('EOF in multi-line statement',)" :=
  ⟨(inserted_text_escaped_once [] "" ⟨TokKind.NAME, "if", (1, 0), (1, 2)⟩ []
      "x").1 rfl (by decide),
   (inserted_text_escaped_once [] "" ⟨TokKind.OP, "<", (1, 0), (1, 1)⟩ []
      "x").2.2.2.2.1 (Or.inl rfl),
   (inserted_text_escaped_once [] "" ⟨TokKind.OP, "<", (1, 0), (1, 1)⟩ []
      "('EOF in multi-line statement',)").2.2.2.2.2⟩

/-! ## Theorems on the highlighter round-trip (claim C7) -/

/-- Lemma: `html.escape` maps no character to the empty string. -/
theorem escapeChar_ne_nil (c : Char) : escapeChar c ≠ [] := by
  unfold escapeChar
  split_ifs <;> simp

/-- Lemma: `html.escape` output never contains a literal `<`. -/
theorem no_lt_escapeChar (c : Char) : '<' ∉ escapeChar c := by
  unfold escapeChar
  split_ifs with h1 h2 h3 h4 h5
  · decide
  · decide
  · decide
  · decide
  · decide
  · intro h
    rw [List.mem_singleton] at h
    exact h2 h.symm

/-- Lemma: `htmlEscape` output never contains a literal `<`. -/
theorem no_lt_htmlEscape (s : String) : '<' ∉ (htmlEscape s).data := by
  intro h
  have hd : (htmlEscape s).data = s.data.flatMap escapeChar := rfl
  rw [hd, List.mem_flatMap] at h
  obtain ⟨c, _, hc⟩ := h
  exact no_lt_escapeChar c hc

/-- Lemma: `htmlEscape` is a homomorphism for concatenation. -/
theorem htmlEscape_append (a b : String) :
    htmlEscape (a ++ b) = htmlEscape a ++ htmlEscape b := by
  apply String.ext
  show (a ++ b).data.flatMap escapeChar = _
  rw [String.data_append, List.flatMap_append]
  rfl

/-- Lemma: `htmlEscape` leaves runs of spaces unchanged. -/
theorem htmlEscape_spaces (n : Nat) :
    htmlEscape (String.mk (List.replicate n ' ')) =
      String.mk (List.replicate n ' ') := by
  apply String.ext
  show (List.replicate n ' ').flatMap escapeChar = List.replicate n ' '
  induction n with
  | zero => rfl
  | succ n ih =>
    rw [List.replicate_succ, List.flatMap_cons, ih]
    rfl

/-- Lemma: `htmlEscape` of a nonempty string is nonempty. -/
theorem htmlEscape_ne_empty {s : String} (h : s ≠ "") : htmlEscape s ≠ "" := by
  intro hcon
  rcases hs : s.data with _ | ⟨c, cs⟩
  · exact h (String.ext (by rw [hs]))
  · have hd : (htmlEscape s).data = s.data.flatMap escapeChar := rfl
    have : ([] : List Char) = s.data.flatMap escapeChar := by
      rw [← hd, hcon]
    rw [hs, List.flatMap_cons] at this
    rcases List.append_eq_nil.mp this.symm with ⟨h1, _⟩
    exact escapeChar_ne_nil c h1

/-- Lemma: appending to a nonempty string stays nonempty. -/
theorem str_append_ne_empty_left (a b : String) (h : a ≠ "") : a ++ b ≠ "" := by
  intro hcon
  apply h
  apply String.ext
  have : (a ++ b).data = [] := by rw [hcon]
  rw [String.data_append] at this
  rcases List.append_eq_nil.mp this with ⟨h1, _⟩
  rw [h1]

/-- Lemma: prepending to a nonempty string stays nonempty. -/
theorem str_append_ne_empty_right (a b : String) (h : b ≠ "") : a ++ b ≠ "" := by
  intro hcon
  apply h
  apply String.ext
  have : (a ++ b).data = [] := by rw [hcon]
  rw [String.data_append] at this
  rcases List.append_eq_nil.mp this with ⟨_, h2⟩
  rw [h2]

/-- Lemma: unfolding one `hlStep` on an explicit state triple. -/
theorem hlStep_def (out : List String) (line : String) (lp : Nat) (t : Tok) :
    hlStep (out, line, lp) t =
      ((handle_token out (begin_indent line t.start lp) t).1,
       (handle_token out (begin_indent line t.start lp) t).2, t.stop.2) := rfl

/-- Lemma: `begin_indent` on a nonempty accumulator pads exactly the gap to
the previous token's end column. -/
theorem begin_indent_nonempty (line : String) (hline : line ≠ "")
    (r c last_pos : Nat) :
    begin_indent line (r, c) last_pos =
      line ++ String.mk (List.replicate (c - last_pos) ' ') := by
  unfold begin_indent
  rw [if_neg hline]
  by_cases h : c > last_pos
  · rw [if_pos h]
  · rw [if_neg h]
    have hz : c - last_pos = 0 := by omega
    rw [hz]
    exact (String.append_empty line).symm

/-- Lemma: `begin_indent` on the empty accumulator pads to the token's
start column. -/
theorem begin_indent_empty (r c last_pos : Nat) :
    begin_indent "" (r, c) last_pos = String.mk (List.replicate c ' ') := by
  unfold begin_indent
  rw [if_pos rfl]
  by_cases h : c > 0
  · rw [if_pos h]
    exact String.empty_append _
  · rw [if_neg h]
    have hz : c = 0 := by omega
    subst hz
    rfl

/-- Lemma: flush-kind tokens (NL, NEWLINE, ENDMARKER) complete the
accumulated line. -/
theorem handle_token_flush (out : List String) (line : String) (t : Tok)
    (h : t.toknum = TokKind.NL ∨ t.toknum = TokKind.NEWLINE ∨
      t.toknum = TokKind.ENDMARKER) :
    handle_token out line t = (out ++ [line], "") := by
  unfold handle_token
  rcases h with h | h | h <;> rw [h] <;> simp

/-- Lemma: a non-keyword NAME token is appended HTML-escaped, with no
span. -/
theorem handle_token_name_plain (out : List String) (line : String) (t : Tok)
    (hk : t.toknum = TokKind.NAME) (hkw : iskeyword t.tokval = false) :
    handle_token out line t = (out, line ++ htmlEscape t.tokval) := by
  unfold handle_token
  rw [hk]
  simp [hkw]

/-- Lemma: the loop of `highlight_code` over the NAME tokens of a
well-formed identifier layout followed by the terminating NEWLINE flushes
exactly one line: the accumulator extended with the HTML-escape of the
rendered remainder of the layout. -/
theorem hl_layout_aux (items : List (Nat × String)) (tcol : Nat) :
    ∀ (pos : Nat) (line : String) (out : List String),
      wfLayout pos items = true → line ≠ "" →
      (layoutTokens 1 items ++
        [(⟨TokKind.NEWLINE, "\n", (1, tcol), (1, tcol + 1)⟩ : Tok)]).foldl
          hlStep (out, line, pos) =
        (out ++ [line ++ htmlEscape (renderLayout pos items tcol)], "",
         tcol + 1) := by
  induction items with
  | nil =>
    intro pos line out _ hline
    simp only [layoutTokens, List.nil_append, List.foldl_cons, List.foldl_nil,
      hlStep_def]
    rw [begin_indent_nonempty line hline 1 tcol pos]
    rw [handle_token_flush _ _ _ (Or.inr (Or.inl rfl))]
    rw [renderLayout, htmlEscape_spaces]
  | cons item rest ih =>
    rcases item with ⟨c, s⟩
    intro pos line out hwf hline
    have hwf4 : ((pos ≤ c ∧ ¬s = "") ∧ iskeyword s = false) ∧
        wfLayout (c + s.length) rest = true := by
      simpa [wfLayout] using hwf
    obtain ⟨⟨⟨hpc, hs⟩, hkw⟩, hrest⟩ := hwf4
    simp only [layoutTokens, List.cons_append, List.foldl_cons, hlStep_def]
    rw [begin_indent_nonempty line hline 1 c pos]
    rw [handle_token_name_plain _ _ _ rfl hkw]
    rw [ih (c + s.length)
      (line ++ String.mk (List.replicate (c - pos) ' ') ++ htmlEscape s) out
      hrest
      (str_append_ne_empty_left _ _ (str_append_ne_empty_left _ _ hline))]
    rw [renderLayout, htmlEscape_append, htmlEscape_append, htmlEscape_spaces,
      String.append_assoc, String.append_assoc, String.append_assoc]

/-- C7 counterexample: the source line `x<TAB>y` consists only of plain
identifiers and whitespace, but its whitespace is a tab.  The tokenizer
reports `y` at column 2 (columns are character offsets), the gap-recovery
rule of `begin_indent` pads the gap with a *space*, and the produced
SourceLine `x y` — which contains no markup to strip — differs from the
HTML-escape of the original line `x<TAB>y` (a tab is unchanged by
`html.escape`): the claimed round-trip fails for non-space whitespace. -/
theorem tab_line_roundtrip_fails :
    highlight_code
      [⟨TokKind.NAME, "x", (1, 0), (1, 1)⟩,
       ⟨TokKind.NAME, "y", (1, 2), (1, 3)⟩,
       ⟨TokKind.NEWLINE, "\n", (1, 3), (1, 4)⟩] none = ["x y"] ∧
    htmlEscape "x\ty" = "x\ty" ∧
    ("x y" : String) ≠ "x\ty" :=
  ⟨rfl, rfl, by decide⟩

/-- C7 (amended): for a source line consisting only of plain identifiers
and *spaces* (described by a well-formed layout, terminated by the NEWLINE
token at column `tcol`), the single SourceLine the highlighter produces is
exactly the HTML-escape of the original line text — all leading, interior
and trailing space whitespace reconstructed by the gap-recovery rule — and
it contains no `<` at all, so it has no markup spans to strip.  (For other
whitespace the rule substitutes spaces and the round-trip fails; see the
counterexample.) -/
theorem plain_line_roundtrip (items : List (Nat × String)) (tcol : Nat)
    (hwf : wfLayout 0 items = true) :
    highlight_code
        (layoutTokens 1 items ++
          [(⟨TokKind.NEWLINE, "\n", (1, tcol), (1, tcol + 1)⟩ : Tok)]) none =
      [htmlEscape (renderLayout 0 items tcol)] ∧
    '<' ∉ (htmlEscape (renderLayout 0 items tcol)).data := by
  refine ⟨?_, no_lt_htmlEscape _⟩
  unfold highlight_code hlRun
  cases items with
  | nil =>
    simp only [layoutTokens, List.nil_append, List.foldl_cons, List.foldl_nil,
      hlStep_def]
    rw [begin_indent_empty 1 tcol 0]
    rw [handle_token_flush _ _ _ (Or.inr (Or.inl rfl))]
    rw [renderLayout, htmlEscape_spaces]
    simp
  | cons item rest =>
    rcases item with ⟨c, s⟩
    have hwf3 : (¬s = "" ∧ iskeyword s = false) ∧
        wfLayout (c + s.length) rest = true := by
      simpa [wfLayout] using hwf
    obtain ⟨⟨hs, hkw⟩, hrest⟩ := hwf3
    simp only [layoutTokens, List.cons_append, List.foldl_cons, hlStep_def]
    rw [begin_indent_empty 1 c 0]
    rw [handle_token_name_plain _ _ _ rfl hkw]
    rw [hl_layout_aux rest tcol (c + s.length)
      (String.mk (List.replicate c ' ') ++ htmlEscape s) []
      hrest
      (str_append_ne_empty_right _ _ (htmlEscape_ne_empty hs))]
    rw [renderLayout, htmlEscape_append, htmlEscape_append, htmlEscape_spaces,
      Nat.sub_zero]
    simp [String.append_assoc]

/-- Witness for `plain_line_roundtrip`: the line `x yz` (identifier `x` at
column 0, identifier `yz` at column 2, newline at column 4). -/
theorem plain_line_roundtrip_witness :
    wfLayout 0 [(0, "x"), (2, "yz")] = true ∧
    highlight_code
        (layoutTokens 1 [(0, "x"), (2, "yz")] ++
          [⟨TokKind.NEWLINE, "\n", (1, 4), (1, 4 + 1)⟩]) none =
      [htmlEscape (renderLayout 0 [(0, "x"), (2, "yz")] 4)] ∧
    '<' ∉ (htmlEscape (renderLayout 0 [(0, "x"), (2, "yz")] 4)).data :=
  ⟨by decide, (plain_line_roundtrip [(0, "x"), (2, "yz")] 4 (by decide)).1,
    (plain_line_roundtrip [(0, "x"), (2, "yz")] 4 (by decide)).2⟩

/-! ## Theorems on report filenames (claim C8) -/

/-- Validation of the MD5 embedding: RFC 1321 test vector for the empty
message. -/
theorem md5_vector_empty :
    md5hexdigest (utf8Encode "") = "d41d8cd98f00b204e9800998ecf8427e" := by
  decide

/-- Validation of the MD5 embedding: RFC 1321 test vector for `abc`. -/
theorem md5_vector_abc :
    md5hexdigest (utf8Encode "abc") = "900150983cd24fb0d6963f7d28e17f72" := by
  decide

/-- Lemma: `leBytes` produces exactly `k` bytes. -/
theorem leBytes_length (k n : Nat) : (leBytes k n).length = k := by
  induction k generalizing n with
  | zero => rfl
  | succ k ih => simp [leBytes, ih]

/-- Lemma: the MD5 digest has 16 bytes. -/
theorem md5Bytes_length (msg : List Nat) : (md5Bytes msg).length = 16 := by
  unfold md5Bytes
  simp [leBytes_length]

/-- Lemma: flat-mapping two nibbles per byte doubles the length. -/
theorem flatMap_pair_length {α : Type} (f g : α → Nat) (l : List α) :
    (l.flatMap (fun b => [f b, g b])).length = 2 * l.length := by
  induction l with
  | nil => rfl
  | cons x xs ih =>
    rw [List.flatMap_cons, List.length_append, ih, List.length_cons]
    simp
    omega

/-- Lemma: the MD5 hex digest has 32 nibbles. -/
theorem md5Nibbles_length (msg : List Nat) : (md5Nibbles msg).length = 32 := by
  unfold md5Nibbles
  rw [flatMap_pair_length, md5Bytes_length]

/-- Lemma: every nibble is below 16. -/
theorem md5Nibbles_lt (msg : List Nat) : ∀ x ∈ md5Nibbles msg, x < 16 := by
  intro x hx
  unfold md5Nibbles at hx
  rw [List.mem_flatMap] at hx
  obtain ⟨b, _, hb⟩ := hx
  rcases List.mem_cons.mp hb with h | h
  · rw [h]; exact Nat.mod_lt _ (by omega)
  · rw [List.mem_singleton.mp h]; exact Nat.mod_lt _ (by omega)

/-- Lemma: `getD` yields a list element or the default. -/
theorem getD_mem_or {α : Type} (l : List α) (n : Nat) (d : α) :
    l.getD n d ∈ l ∨ l.getD n d = d := by
  induction l generalizing n with
  | nil => right; cases n <;> rfl
  | cons x xs ih =>
    cases n with
    | zero => exact Or.inl (List.mem_cons_self _ _)
    | succ n =>
      rw [List.getD_cons_succ]
      rcases ih n with h | h
      · exact Or.inl (List.mem_cons_of_mem _ h)
      · exact Or.inr h

/-- Lemma: `hexChar` always yields a hex digit character. -/
theorem hexChar_mem (n : Nat) : hexChar n ∈ "0123456789abcdef".data := by
  rcases getD_mem_or "0123456789abcdef".data n '0' with h | h
  · exact h
  · rw [hexChar, h]; decide

/-- C8 (amended): the report file name is
`<prefix><12-hex-digest>_<sanitized-name>.html`, where the digest is the
last 12 hex digits of the 32-digit MD5 hex digest of the UTF-8 bytes of
the resolved parent directory; two files with the same base name get
distinct report names whenever those truncated digests differ — but only
then: the digest keeps 48 bits of the hash, so distinct parents are not
guaranteed distinct names (see the collision counterexample). -/
theorem create_hashed_html_filename_spec (parent1 parent2 name pfx : String)
    (hne : pyTakeLast (md5hexdigest (utf8Encode parent1)) 12 ≠
      pyTakeLast (md5hexdigest (utf8Encode parent2)) 12) :
    create_hashed_html_filename parent1 name pfx =
      pfx ++ pyTakeLast (md5hexdigest (utf8Encode parent1)) 12 ++ "_" ++
        String.mk (name.data.map (fun c => if c = '.' then '_' else c)) ++
        ".html" ∧
    (md5hexdigest (utf8Encode parent1)).length = 32 ∧
    (pyTakeLast (md5hexdigest (utf8Encode parent1)) 12).length = 12 ∧
    (∀ c ∈ (md5hexdigest (utf8Encode parent1)).data,
      c ∈ "0123456789abcdef".data) ∧
    create_hashed_html_filename parent1 name pfx ≠
      create_hashed_html_filename parent2 name pfx := by
  have hlen : ∀ p : String, (md5hexdigest (utf8Encode p)).data.length = 32 := by
    intro p
    show ((md5Nibbles (utf8Encode p)).map hexChar).length = 32
    rw [List.length_map, md5Nibbles_length]
  have htl : ∀ p : String,
      (pyTakeLast (md5hexdigest (utf8Encode p)) 12).data.length = 12 := by
    intro p
    show ((md5hexdigest (utf8Encode p)).data.drop _).length = 12
    rw [List.length_drop, hlen]
  refine ⟨rfl, hlen parent1, htl parent1, ?_, ?_⟩
  · intro c hc
    rcases List.mem_map.mp hc with ⟨n, _, hn⟩
    rw [← hn]
    exact hexChar_mem n
  · intro hcon
    apply hne
    have hd := congrArg String.data hcon
    simp only [create_hashed_html_filename, String.data_append,
      List.append_assoc] at hd
    have hd1 := List.append_cancel_left hd
    apply String.ext
    exact (List.append_inj hd1 (by rw [htl parent1, htl parent2])).1

/-- Witness for `create_hashed_html_filename_spec`: the parents `/tmp/a`
and `/tmp/b` have different truncated digests and yield distinct names for
the same file `mod.py`. -/
theorem create_hashed_html_filename_spec_witness :
    pyTakeLast (md5hexdigest (utf8Encode "/tmp/a")) 12 ≠
      pyTakeLast (md5hexdigest (utf8Encode "/tmp/b")) 12 ∧
    create_hashed_html_filename "/tmp/a" "mod.py" "zz_" ≠
      create_hashed_html_filename "/tmp/b" "mod.py" "zz_" :=
  ⟨by decide,
    (create_hashed_html_filename_spec "/tmp/a" "/tmp/b" "mod.py" "zz_"
      (by decide)).2.2.2.2⟩

/-- Lemma: folding base-16 digits is bounded. -/
theorem foldl16_lt (l : List Nat) :
    ∀ acc : Nat, (∀ x ∈ l, x < 16) →
      l.foldl (fun a n => 16 * a + n) acc < (acc + 1) * 16 ^ l.length := by
  induction l with
  | nil =>
    intro acc _
    simp only [List.foldl_nil, List.length_nil, Nat.pow_zero, Nat.mul_one]
    exact Nat.lt_succ_self acc
  | cons x xs ih =>
    intro acc hb
    rw [List.foldl_cons]
    have hx : x < 16 := hb x (List.mem_cons_self _ _)
    have h1 := ih (16 * acc + x) (fun z hz => hb z (List.mem_cons_of_mem _ hz))
    calc xs.foldl (fun a n => 16 * a + n) (16 * acc + x)
        < (16 * acc + x + 1) * 16 ^ xs.length := h1
      _ ≤ (16 * (acc + 1)) * 16 ^ xs.length := by
          apply Nat.mul_le_mul_right
          omega
      _ = (acc + 1) * 16 ^ (x :: xs).length := by
          rw [List.length_cons, Nat.pow_succ]
          ring

/-- Lemma: the truncated digest value is below `16^12`. -/
theorem digestNat_lt (p : String) : digestNat p < 16 ^ 12 := by
  have h := foldl16_lt ((md5Nibbles (utf8Encode p)).drop 20) 0
    (fun x hx => md5Nibbles_lt _ x (List.mem_of_mem_drop hx))
  rw [List.length_drop, md5Nibbles_length] at h
  simpa [digestNat] using h

/-- Lemma: folding base-16 digits is injective on digit lists of equal
length. -/
theorem foldl16_inj (l1 : List Nat) :
    ∀ (l2 : List Nat) (acc1 acc2 : Nat), l1.length = l2.length →
      (∀ x ∈ l1, x < 16) → (∀ x ∈ l2, x < 16) →
      l1.foldl (fun a n => 16 * a + n) acc1 =
        l2.foldl (fun a n => 16 * a + n) acc2 →
      acc1 = acc2 ∧ l1 = l2 := by
  induction l1 with
  | nil =>
    intro l2 acc1 acc2 hlen _ _ heq
    cases l2 with
    | nil => exact ⟨heq, rfl⟩
    | cons y ys => simp at hlen
  | cons x xs ih =>
    intro l2 acc1 acc2 hlen h1 h2 heq
    cases l2 with
    | nil => simp at hlen
    | cons y ys =>
      rw [List.foldl_cons, List.foldl_cons] at heq
      have hlen2 : xs.length = ys.length := by simpa using hlen
      obtain ⟨hacc, hl⟩ := ih ys (16 * acc1 + x) (16 * acc2 + y) hlen2
        (fun z hz => h1 z (List.mem_cons_of_mem _ hz))
        (fun z hz => h2 z (List.mem_cons_of_mem _ hz)) heq
      have hx : x < 16 := h1 x (List.mem_cons_self _ _)
      have hy : y < 16 := h2 y (List.mem_cons_self _ _)
      refine ⟨by omega, ?_⟩
      rw [hl]
      have : x = y := by omega
      rw [this]

/-- Lemma: parents with the same last 12 digest nibbles have the same
truncated hex digest string. -/
theorem pyTakeLast_digest_eq (p q : String)
    (h : (md5Nibbles (utf8Encode p)).drop 20 =
      (md5Nibbles (utf8Encode q)).drop 20) :
    pyTakeLast (md5hexdigest (utf8Encode p)) 12 =
      pyTakeLast (md5hexdigest (utf8Encode q)) 12 := by
  apply String.ext
  show ((md5Nibbles (utf8Encode p)).map hexChar).drop
      (((md5Nibbles (utf8Encode p)).map hexChar).length - 12) =
    ((md5Nibbles (utf8Encode q)).map hexChar).drop
      (((md5Nibbles (utf8Encode q)).map hexChar).length - 12)
  rw [List.length_map, md5Nibbles_length, List.length_map, md5Nibbles_length,
    ← List.map_drop, ← List.map_drop,
    show (32 : Nat) - 12 = 20 from rfl, h]

/-- C8 counterexample: the digest is truncated to 12 hex digits (48 bits),
so by the pigeonhole principle there exist two distinct resolved parent
directories whose report file names for the same base name `mod.py`
coincide — the claim's universal distinctness fails. -/
theorem report_filename_collision :
    ∃ p1 p2 : String, p1 ≠ p2 ∧
      create_hashed_html_filename p1 "mod.py" "zz_" =
        create_hashed_html_filename p2 "mod.py" "zz_" := by
  obtain ⟨m, n, hmn, hF⟩ := Finite.exists_ne_map_eq_of_infinite
    (fun k : Nat =>
      (⟨digestNat (String.mk ('/' :: List.replicate k 'a')),
        digestNat_lt _⟩ : Fin (16 ^ 12)))
  refine ⟨String.mk ('/' :: List.replicate m 'a'),
    String.mk ('/' :: List.replicate n 'a'), ?_, ?_⟩
  · intro h
    apply hmn
    have hd := congrArg (fun s : String => s.data.length) h
    simpa using hd
  · have hdig : digestNat (String.mk ('/' :: List.replicate m 'a')) =
        digestNat (String.mk ('/' :: List.replicate n 'a')) :=
      congrArg Fin.val hF
    have hlen : ∀ p : String,
        ((md5Nibbles (utf8Encode p)).drop 20).length = 12 := by
      intro p
      rw [List.length_drop, md5Nibbles_length]
    have hnib := (foldl16_inj _ _ 0 0
      (by rw [hlen, hlen])
      (fun x hx => md5Nibbles_lt _ x (List.mem_of_mem_drop hx))
      (fun x hx => md5Nibbles_lt _ x (List.mem_of_mem_drop hx)) hdig).2
    unfold create_hashed_html_filename
    rw [pyTakeLast_digest_eq _ _ hnib]

end HtmlMut
